import Mathlib

/- Shallow embedding of the form persistence core of src/backend/server.py.

   Documents live in a Mongo-like collection, modeled as a list in natural
   (insertion) order.  Every stored document carries a store-native
   identifier in its underscore-id slot (mongoId); it may also carry an
   app-level string identifier under the id key (id?), which is optional
   because legacy records may lack it.  Time is modeled as a Nat-valued
   clock passed to each request handler; every utcnow call inside one
   handler reads the same instant.  App-generated UUID strings and
   stringified native ObjectIds are modeled by two injective generators
   with disjoint ranges into String. -/

deriving instance DecidableEq for Except

namespace FormBuilder

/-- Primitive JSON-like values used for the loosely typed field attributes
    that the source leaves as arbitrary dictionaries. -/
inductive JVal where
  | jnull
  | jbool (b : Bool)
  | jnum (n : Int)
  | jstr (s : String)
deriving DecidableEq, Repr

/-- Attribute record: a mapping from string keys to attribute values. -/
abbrev AttrMap := List (String × JVal)

/-- Shape of the values attribute of a field: either a list of option
    records or a mapping of option records, as in the source union type. -/
inductive ValuesSpec where
  | vlist (items : List AttrMap)
  | vmap (items : List (String × AttrMap))
deriving DecidableEq, Repr

/-- The required attribute is boolean-or-string typed in the source. -/
inductive ReqVal where
  | rbool (b : Bool)
  | rstr (s : String)
deriving DecidableEq, Repr

/-- Pydantic model FormField of server.py, after structural parsing has
    applied the declared defaults. -/
structure FormField where
  type : String
  label : String
  name : String
  required : ReqVal := .rbool false
  className : String := "form-control"
  access : Bool := false
  subtype : Option String := none
  maxlength : Option Int := none
  multiple : Option Bool := none
  values : Option ValuesSpec := none
  conditions : Option (List AttrMap) := none
  sort_option : Option String := none
  default_display_field : Option Bool := none
deriving DecidableEq, Repr

/-- A persisted field descriptor: the plain dictionary produced by the
    pydantic dict conversion of a FormField, key for key. -/
structure FieldDoc where
  type : String
  label : String
  name : String
  required : ReqVal
  className : String
  access : Bool
  subtype : Option String
  maxlength : Option Int
  multiple : Option Bool
  values : Option ValuesSpec
  conditions : Option (List AttrMap)
  sort_option : Option String
  default_display_field : Option Bool
deriving DecidableEq, Repr

/-- The dict method of a pydantic FormField: every declared key is copied
    into the plain record unchanged. -/
def fieldDict (f : FormField) : FieldDoc :=
  { type := f.type, label := f.label, name := f.name, required := f.required,
    className := f.className, access := f.access, subtype := f.subtype,
    maxlength := f.maxlength, multiple := f.multiple, values := f.values,
    conditions := f.conditions, sort_option := f.sort_option,
    default_display_field := f.default_display_field }

/-- Store-native identifier: either a native ObjectId (assigned by the
    store at insertion) or a plain string (possible in legacy records).
    Mongo equality is typed, so a string query value never matches a
    native ObjectId. -/
inductive MongoId where
  | oid (n : Nat)
  | sid (s : String)
deriving DecidableEq, Repr

/-- Model of the app-generated UUID string with index n. -/
def uuidStr (n : Nat) : String := String.mk ('U' :: List.replicate n 'u')

/-- Model of the string rendering of the native ObjectId with index n. -/
def oidStr (n : Nat) : String := String.mk ('O' :: List.replicate n 'o')

/-- The str conversion applied to a value taken from the underscore-id
    slot: ObjectIds render via oidStr, strings render as themselves. -/
def mongoIdStr : MongoId → String
  | .oid n => oidStr n
  | .sid s => s

/-- One stored document of the forms collection. -/
structure Doc where
  mongoId : MongoId
  id? : Option String
  name : String
  fields : List FieldDoc
  created_at : Nat
  updated_at : Nat
deriving DecidableEq, Repr

/-- The forms collection plus the two freshness counters of the model:
    nextOid feeds native ObjectId assignment, nextUuid feeds the uuid4
    generator of the Form pydantic model. -/
structure DB where
  docs : List Doc
  nextOid : Nat
  nextUuid : Nat
deriving DecidableEq, Repr

def dbEmpty : DB := ⟨[], 0, 0⟩

/-- Mongo find-one: first document in natural order satisfying the query. -/
def findFirst (p : Doc → Bool) : List Doc → Option Doc
  | [] => none
  | d :: ds => if p d then some d else findFirst p ds

/-- Mongo update-one with a set modifier: rewrites the first matching
    document and reports the modified count, which is zero when no
    document matched or when the rewrite left the document unchanged. -/
def updateFirst (p : Doc → Bool) (f : Doc → Doc) : List Doc → List Doc × Nat
  | [] => ([], 0)
  | d :: ds =>
    if p d then (f d :: ds, if f d = d then 0 else 1)
    else
      let r := updateFirst p f ds
      (d :: r.1, r.2)

/-- Mongo delete-one: removes the first matching document and reports the
    deleted count. -/
def deleteFirst (p : Doc → Bool) : List Doc → List Doc × Nat
  | [] => ([], 0)
  | d :: ds =>
    if p d then (ds, 1)
    else
      let r := deleteFirst p ds
      (d :: r.1, r.2)

/-- Query on the app-level id key. -/
def idMatches (x : String) (d : Doc) : Bool := d.id? == some x

/-- Query on the underscore-id slot with a string value. -/
def mongoStrMatches (x : String) (d : Doc) : Bool := d.mongoId == .sid x

/-- Query on the underscore-id slot with a native ObjectId value. -/
def oidMatches (n : Nat) (d : Doc) : Bool := d.mongoId == .oid n

/-- An HTTPException: status code and detail string. -/
structure HErr where
  status : Nat
  detail : String
deriving DecidableEq, Repr

/-- String rendering of an HTTPException, as the starlette class prints
    it: status, colon, space, detail. -/
def hErrStr (e : HErr) : String := toString e.status ++ ": " ++ e.detail

/-- Model of the except-Exception clause wrapping every handler body in
    server.py: any exception raised inside the try block, including an
    HTTPException carrying status 404, is caught and re-raised as a status
    500 HTTPException whose detail is the string rendering of the caught
    exception. -/
def wrapTry {α : Type} : Except HErr α → Except HErr α
  | .error e => .error ⟨500, hErrStr e⟩
  | .ok a => .ok a

/-- Response body of the Form response model: the only identifier key it
    exposes is the app-level id; pydantic validation drops any leftover
    underscore-id key from a returned raw document. -/
structure FormOut where
  id : String
  name : String
  fields : List FieldDoc
  created_at : Nat
  updated_at : Nat
deriving DecidableEq, Repr

/-- Serialization of a stored document through the Form response model,
    given the string that ends up under the id key. -/
def docOut (i : String) (d : Doc) : FormOut :=
  ⟨i, d.name, d.fields, d.created_at, d.updated_at⟩

/-- The Form pydantic object built inside create-form: fresh uuid4 id,
    created and updated stamps both set at construction, fields passed
    through the dict conversion; insertion adds the native ObjectId. -/
def newDoc (db : DB) (nm : String) (flds : List FormField) (now : Nat) : Doc :=
  { mongoId := .oid db.nextOid
    id? := some (uuidStr db.nextUuid)
    name := nm
    fields := flds.map fieldDict
    created_at := now
    updated_at := now }

/-- Body of the create-form handler: build the Form with a fresh uuid id,
    insert it, find it back by its native ObjectId, then assign the popped
    underscore-id, rendered as a string, to the id key of the response
    dictionary.  That assignment overwrites the persisted uuid in the
    response. -/
def createFormBody (db : DB) (nm : String) (flds : List FormField) (now : Nat) :
    Except HErr FormOut × DB :=
  let doc := newDoc db nm flds now
  let docs1 := db.docs ++ [doc]
  let db1 : DB := ⟨docs1, db.nextOid + 1, db.nextUuid + 1⟩
  let resp : Except HErr FormOut :=
    match findFirst (oidMatches db.nextOid) docs1 with
    | some d => .ok (docOut (mongoIdStr d.mongoId) d)
    | none => .error ⟨500, "Failed to create form"⟩
  (resp, db1)

/-- The create-form handler with its exception wrapper. -/
def createForm (db : DB) (nm : String) (flds : List FormField) (now : Nat) :
    Except HErr FormOut × DB :=
  let r := createFormBody db nm flds now
  (wrapTry r.1, r.2)

/-- The list handler: take the first hundred documents in natural order
    and assign the popped underscore-id, rendered as a string, to the id
    key of each response dictionary, overwriting any stored id value. -/
def getForms (db : DB) : List FormOut :=
  (db.docs.take 100).map (fun d => docOut (mongoIdStr d.mongoId) d)

/-- Body of the get-form handler: find by the app-level id key first; on a
    miss, find by the underscore-id slot queried with the input string; on
    a double miss raise the 404 HTTPException.  The identifier of the
    response is normalized from the underscore-id only when the document
    carries no id key. -/
def getFormBody (db : DB) (formId : String) : Except HErr FormOut :=
  let found :=
    match findFirst (idMatches formId) db.docs with
    | some d => some d
    | none => findFirst (mongoStrMatches formId) db.docs
  match found with
  | none => .error ⟨404, "Form not found"⟩
  | some d =>
    match d.id? with
    | some i => .ok (docOut i d)
    | none => .ok (docOut (mongoIdStr d.mongoId) d)

/-- The get-form handler with its exception wrapper. -/
def getForm (db : DB) (formId : String) : Except HErr FormOut :=
  wrapTry (getFormBody db formId)

/-- The set modifier used by the update handler: replace name and fields,
    refresh the updated stamp, touch nothing else. -/
def setFields (nm : String) (flds : List FieldDoc) (now : Nat) (d : Doc) : Doc :=
  { d with name := nm, fields := flds, updated_at := now }

/-- Body of the update-form handler: update-one strictly by the app-level
    id key, raise the 404 HTTPException when the modified count is zero,
    otherwise find the document back by the same key and return it raw.
    The unreachable branches where the find-back fails model the response
    validation failure that would occur outside the try block. -/
def updateFormBody (db : DB) (formId nm : String) (flds : List FormField) (now : Nat) :
    Except HErr FormOut × DB :=
  let r := updateFirst (idMatches formId) (setFields nm (flds.map fieldDict) now) db.docs
  let db1 : DB := ⟨r.1, db.nextOid, db.nextUuid⟩
  let resp : Except HErr FormOut :=
    if r.2 = 0 then .error ⟨404, "Form not found"⟩
    else
      match findFirst (idMatches formId) r.1 with
      | some d =>
        match d.id? with
        | some i => .ok (docOut i d)
        | none => .error ⟨500, "response validation failed"⟩
      | none => .error ⟨500, "response validation failed"⟩
  (resp, db1)

/-- The update-form handler with its exception wrapper. -/
def updateForm (db : DB) (formId nm : String) (flds : List FormField) (now : Nat) :
    Except HErr FormOut × DB :=
  let r := updateFormBody db formId nm flds now
  (wrapTry r.1, r.2)

/-- Body of the delete-form handler: delete-one strictly by the app-level
    id key, raise the 404 HTTPException when the deleted count is zero. -/
def deleteFormBody (db : DB) (formId : String) : Except HErr String × DB :=
  let r := deleteFirst (idMatches formId) db.docs
  let db1 : DB := ⟨r.1, db.nextOid, db.nextUuid⟩
  let resp : Except HErr String :=
    if r.2 = 0 then .error ⟨404, "Form not found"⟩
    else .ok "Form deleted successfully"
  (resp, db1)

/-- The delete-form handler with its exception wrapper. -/
def deleteForm (db : DB) (formId : String) : Except HErr String × DB :=
  let r := deleteFormBody db formId
  (wrapTry r.1, r.2)

/-- One API request against the forms collection. -/
inductive Op where
  | create (nm : String) (flds : List FormField) (now : Nat)
  | update (formId nm : String) (flds : List FormField) (now : Nat)
  | delete (formId : String)
  | getOne (formId : String)
  | list
deriving Repr

/-- Effect of one request on the store state. -/
def step (db : DB) : Op → DB
  | .create nm flds now => (createForm db nm flds now).2
  | .update formId nm flds now => (updateForm db formId nm flds now).2
  | .delete formId => (deleteForm db formId).2
  | .getOne _ => db
  | .list => db

/-- States reachable from the empty store through API requests. -/
inductive Reachable : DB → Prop
  | init : Reachable dbEmpty
  | next {db : DB} (op : Op) : Reachable db → Reachable (step db op)

/-- Concrete submitted field matching the scenario of the repository test
    script: a required text field. -/
def sampleField : FormField :=
  { type := "text", label := "Full Name", name := "full_name", required := .rbool true }

def sampleFieldDoc : FieldDoc := fieldDict sampleField

/-- Response of the create request on the empty store at time zero: the id
    key holds the stringified native ObjectId. -/
def sampleOut : FormOut := docOut (oidStr 0) (newDoc dbEmpty "Contact" [sampleField] 0)

/-- A document created through the app path: native ObjectId plus a uuid
    under the id key. -/
def appDoc : Doc :=
  { mongoId := .oid 5, id? := some (uuidStr 3), name := "AppForm",
    fields := [sampleFieldDoc], created_at := 1, updated_at := 2 }

/-- A legacy document: string native identifier, no id key. -/
def legacyDoc : Doc :=
  { mongoId := .sid "legacy-7", id? := none, name := "Legacy", fields := [],
    created_at := 3, updated_at := 4 }

def dbMixed : DB := ⟨[appDoc, legacyDoc], 6, 4⟩

def dbOne : DB := ⟨[appDoc], 6, 4⟩

/-- State after deleting the app document from the mixed store. -/
def dbAfterDel : DB := ⟨[legacyDoc], 6, 4⟩

/-- A legacy document whose string native identifier collides with the app
    id of another document. -/
def shadowDoc : Doc :=
  { mongoId := .sid "k", id? := none, name := "Shadow", fields := [],
    created_at := 0, updated_at := 0 }

def keyDoc : Doc :=
  { mongoId := .oid 9, id? := some "k", name := "Keyed", fields := [],
    created_at := 0, updated_at := 0 }

def dbShadow : DB := ⟨[shadowDoc, keyDoc], 10, 5⟩

/-- The invariant carried by every store reachable through the API: each
    document holds an app uuid under the id key and a native ObjectId,
    both below the freshness counters. -/
def GoodState (db : DB) : Prop :=
  ∀ d ∈ db.docs, ∃ k n, d.id? = some (uuidStr k) ∧ k < db.nextUuid ∧
    d.mongoId = .oid n ∧ n < db.nextOid

end FormBuilder

namespace FormBuilder

theorem findFirst_nil (p : Doc → Bool) : findFirst p [] = none := rfl

theorem findFirst_cons (p : Doc → Bool) (a : Doc) (as : List Doc) :
    findFirst p (a :: as) = if p a then some a else findFirst p as := rfl

theorem updateFirst_nil (p : Doc → Bool) (f : Doc → Doc) :
    updateFirst p f [] = ([], 0) := rfl

theorem updateFirst_cons (p : Doc → Bool) (f : Doc → Doc) (a : Doc) (as : List Doc) :
    updateFirst p f (a :: as) =
      if p a then (f a :: as, if f a = a then 0 else 1)
      else (a :: (updateFirst p f as).1, (updateFirst p f as).2) := rfl

theorem deleteFirst_nil (p : Doc → Bool) : deleteFirst p [] = ([], 0) := rfl

theorem deleteFirst_cons (p : Doc → Bool) (a : Doc) (as : List Doc) :
    deleteFirst p (a :: as) =
      if p a then (as, 1)
      else (a :: (deleteFirst p as).1, (deleteFirst p as).2) := rfl

theorem findFirst_sat {p : Doc → Bool} :
    ∀ {l : List Doc} {d : Doc}, findFirst p l = some d → p d = true := by
  intro l
  induction l with
  | nil => intro d h; simp [findFirst_nil] at h
  | cons a as ih =>
    intro d h
    rw [findFirst_cons] at h
    by_cases hp : p a
    · rw [if_pos hp] at h
      cases h
      exact hp
    · rw [if_neg hp] at h
      exact ih h

theorem findFirst_decomp {p : Doc → Bool} :
    ∀ {l : List Doc} {d : Doc}, findFirst p l = some d →
      ∃ l₁ l₂, l = l₁ ++ d :: l₂ ∧ ∀ x ∈ l₁, p x = false := by
  intro l
  induction l with
  | nil => intro d h; simp [findFirst_nil] at h
  | cons a as ih =>
    intro d h
    rw [findFirst_cons] at h
    by_cases hp : p a
    · rw [if_pos hp] at h
      cases h
      exact ⟨[], as, rfl, by simp⟩
    · rw [if_neg hp] at h
      obtain ⟨l₁, l₂, rfl, hl₁⟩ := ih h
      refine ⟨a :: l₁, l₂, rfl, ?_⟩
      intro x hx
      rcases List.mem_cons.mp hx with rfl | hx
      · simpa using hp
      · exact hl₁ x hx

theorem findFirst_append {p : Doc → Bool} {l₁ : List Doc}
    (h₁ : ∀ x ∈ l₁, p x = false) (d : Doc) (hd : p d = true) (l₂ : List Doc) :
    findFirst p (l₁ ++ d :: l₂) = some d := by
  induction l₁ with
  | nil => simp [findFirst_cons, hd]
  | cons a as ih =>
    have ha : p a = false := h₁ a (List.mem_cons_self a as)
    rw [List.cons_append, findFirst_cons, if_neg (by simp [ha])]
    exact ih (fun x hx => h₁ x (List.mem_cons_of_mem a hx))

theorem updateFirst_append {p : Doc → Bool} {f : Doc → Doc} {l₁ : List Doc}
    (h₁ : ∀ x ∈ l₁, p x = false) (d : Doc) (hd : p d = true) (l₂ : List Doc) :
    updateFirst p f (l₁ ++ d :: l₂) =
      (l₁ ++ f d :: l₂, if f d = d then 0 else 1) := by
  induction l₁ with
  | nil => simp [updateFirst_cons, hd]
  | cons a as ih =>
    have ha : p a = false := h₁ a (List.mem_cons_self a as)
    rw [List.cons_append, updateFirst_cons, if_neg (by simp [ha]),
      ih (fun x hx => h₁ x (List.mem_cons_of_mem a hx))]
    rfl

theorem mem_updateFirst {p : Doc → Bool} {f : Doc → Doc} :
    ∀ {l : List Doc} {x : Doc}, x ∈ (updateFirst p f l).1 →
      x ∈ l ∨ ∃ y ∈ l, x = f y := by
  intro l
  induction l with
  | nil => intro x hx; simp [updateFirst_nil] at hx
  | cons a as ih =>
    intro x hx
    rw [updateFirst_cons] at hx
    by_cases hp : p a
    · rw [if_pos hp] at hx
      rcases List.mem_cons.mp hx with rfl | hx
      · exact Or.inr ⟨a, List.mem_cons_self a as, rfl⟩
      · exact Or.inl (List.mem_cons_of_mem a hx)
    · rw [if_neg hp] at hx
      rcases List.mem_cons.mp hx with rfl | hx
      · exact Or.inl (List.mem_cons_self x as)
      · rcases ih hx with hmem | ⟨y, hy, rfl⟩
        · exact Or.inl (List.mem_cons_of_mem a hmem)
        · exact Or.inr ⟨y, List.mem_cons_of_mem a hy, rfl⟩

theorem mem_deleteFirst {p : Doc → Bool} :
    ∀ {l : List Doc} {x : Doc}, x ∈ (deleteFirst p l).1 → x ∈ l := by
  intro l
  induction l with
  | nil => intro x hx; simp [deleteFirst_nil] at hx
  | cons a as ih =>
    intro x hx
    rw [deleteFirst_cons] at hx
    by_cases hp : p a
    · rw [if_pos hp] at hx
      exact List.mem_cons_of_mem a hx
    · rw [if_neg hp] at hx
      rcases List.mem_cons.mp hx with rfl | hx
      · exact List.mem_cons_self x as
      · exact List.mem_cons_of_mem a (ih hx)

theorem idMatches_iff {x : String} {d : Doc} :
    idMatches x d = true ↔ d.id? = some x := by
  simp [idMatches]

theorem createForm_state (db : DB) (nm : String) (flds : List FormField) (now : Nat) :
    (createForm db nm flds now).2 =
      ⟨db.docs ++ [newDoc db nm flds now], db.nextOid + 1, db.nextUuid + 1⟩ := rfl

theorem updateForm_state (db : DB) (formId nm : String)
    (flds : List FormField) (now : Nat) :
    (updateForm db formId nm flds now).2 =
      ⟨(updateFirst (idMatches formId) (setFields nm (flds.map fieldDict) now) db.docs).1,
       db.nextOid, db.nextUuid⟩ := rfl

theorem deleteForm_state (db : DB) (formId : String) :
    (deleteForm db formId).2 =
      ⟨(deleteFirst (idMatches formId) db.docs).1, db.nextOid, db.nextUuid⟩ := rfl

theorem uuidStr_inj {a b : Nat} (h : uuidStr a = uuidStr b) : a = b := by
  unfold uuidStr at h
  injection h with h2
  have h3 := congrArg List.length h2
  simpa using h3

theorem uuidStr_ne_oidStr (k n : Nat) : uuidStr k ≠ oidStr n := by
  intro h
  unfold uuidStr oidStr at h
  injection h with h2
  injection h2 with h3 h4
  exact absurd h3 (by decide)

end FormBuilder

namespace FormBuilder

/-- C1: the create-then-get round trip fails on the code.  Create on the
    empty store returns a response whose id is the stringified native
    ObjectId, because the handler overwrites the persisted uuid with the
    popped underscore-id; get-form on that returned id misses the app-id
    lookup (the stored id key holds the uuid) and misses the native
    fallback too (the string query value never equals the native
    ObjectId), so the round trip get fails instead of returning the
    submitted name and fields. -/
theorem create_then_get_roundtrip_fails :
    (createForm dbEmpty "Contact" [sampleField] 0).1 = .ok sampleOut ∧
    sampleOut.id = oidStr 0 ∧
    getForm (createForm dbEmpty "Contact" [sampleField] 0).2 sampleOut.id =
      .error ⟨500, "404: Form not found"⟩ := by
  decide

/-- C2: the response of a successful create does not carry the fresh
    app-assigned uuid.  The persisted document stores the uuid under the
    id key, but the response id is the stringified store-native ObjectId,
    a different string; the timestamps of the response are both the
    creation instant. -/
theorem create_returns_native_id_not_app_id :
    (createForm dbEmpty "Contact" [sampleField] 0).1 = .ok sampleOut ∧
    sampleOut.id = oidStr 0 ∧
    (createForm dbEmpty "Contact" [sampleField] 0).2.docs =
      [newDoc dbEmpty "Contact" [sampleField] 0] ∧
    (newDoc dbEmpty "Contact" [sampleField] 0).id? = some (uuidStr 0) ∧
    oidStr 0 ≠ uuidStr 0 ∧
    sampleOut.created_at = 0 ∧ sampleOut.updated_at = 0 := by
  decide

/-- C4: resolution policy of get-form on a mixed store.  A lookup by a
    stored app id succeeds directly; a lookup by the string native
    identifier of a legacy record succeeds through the fallback and the
    response id is normalized from the underscore-id; when a record
    matching by app id exists it wins over an earlier record matching by
    native identifier; and on a double miss the handler responds with
    status 500 wrapping the 404 detail, because the except clause catches
    the HTTPException raised with status 404 and re-raises it with status
    500. -/
theorem get_resolution_policy_concrete :
    getForm dbMixed (uuidStr 3) = .ok (docOut (uuidStr 3) appDoc) ∧
    getForm dbMixed "legacy-7" = .ok (docOut "legacy-7" legacyDoc) ∧
    getForm dbShadow "k" = .ok (docOut "k" keyDoc) ∧
    getForm dbMixed "missing-id" = .error ⟨500, "404: Form not found"⟩ := by
  decide

/-- C5: on an identifier matching no record, the get-form body raises the
    404 not-found HTTPException, but the surrounding except clause catches
    it and the handler responds with status 500, the internal error
    status, carrying the stringified 404 exception as detail. -/
theorem get_missing_returns_500_not_404 :
    getFormBody dbEmpty "no-such-form" = .error ⟨404, "Form not found"⟩ ∧
    getForm dbEmpty "no-such-form" = .error ⟨500, "404: Form not found"⟩ := by
  decide

/-- C6: update resolves strictly by the app-level id key: an update
    addressed by the string native identifier of a legacy record misses,
    exactly as an update addressed by an unknown id does; in both cases no
    record is modified and the store is unchanged, the body raises the 404
    HTTPException, and the handler surfaces status 500 wrapping it. -/
theorem update_strict_by_id_concrete :
    updateForm dbMixed "missing-id" "Renamed" [] 9 =
      (.error ⟨500, "404: Form not found"⟩, dbMixed) ∧
    updateForm dbMixed "legacy-7" "Renamed" [] 9 =
      (.error ⟨500, "404: Form not found"⟩, dbMixed) ∧
    (updateFormBody dbMixed "missing-id" "Renamed" [] 9).1 =
      .error ⟨404, "Form not found"⟩ := by
  decide

/-- C9: delete works strictly by the app-level id key and is terminal.
    Deleting the app document of the mixed store succeeds and leaves only
    the legacy document; afterwards both get-form and update-form on the
    deleted id fail, though the 404 not-found raised by each body is
    surfaced as status 500 by the except clause; a delete addressed by the
    string native identifier of the legacy record misses, showing the
    absence of a native-identifier fallback on the delete path. -/
theorem delete_terminal_concrete :
    deleteForm dbMixed (uuidStr 3) = (.ok "Form deleted successfully", dbAfterDel) ∧
    getForm dbAfterDel (uuidStr 3) = .error ⟨500, "404: Form not found"⟩ ∧
    (updateForm dbAfterDel (uuidStr 3) "Renamed" [] 9).1 =
      .error ⟨500, "404: Form not found"⟩ ∧
    (updateForm dbAfterDel (uuidStr 3) "Renamed" [] 9).2 = dbAfterDel ∧
    deleteForm dbMixed "legacy-7" = (.error ⟨500, "404: Form not found"⟩, dbMixed) ∧
    (deleteFormBody dbMixed "nope").1 = .error ⟨404, "Form not found"⟩ := by
  decide

end FormBuilder

namespace FormBuilder

/-- C3: create persists the submitted fields verbatim.  The new store is
    the old one with exactly one document appended; that document stores
    the submitted name and the submitted field sequence passed through the
    key-for-key dict conversion, preserving content and order, and in
    particular preserving the required attribute whether it is the boolean
    or the string variant. -/
theorem create_stores_fields_verbatim (db : DB) (nm : String)
    (flds : List FormField) (now : Nat) :
    (createForm db nm flds now).2.docs = db.docs ++ [newDoc db nm flds now] ∧
    (newDoc db nm flds now).name = nm ∧
    (newDoc db nm flds now).fields = flds.map fieldDict ∧
    (newDoc db nm flds now).created_at = now ∧
    (newDoc db nm flds now).updated_at = now ∧
    (∀ i : Nat, ((newDoc db nm flds now).fields)[i]? = (flds[i]?).map fieldDict) ∧
    (∀ f : FormField,
      (fieldDict f).type = f.type ∧ (fieldDict f).label = f.label ∧
      (fieldDict f).name = f.name ∧ (fieldDict f).required = f.required ∧
      (fieldDict f).className = f.className ∧ (fieldDict f).access = f.access ∧
      (fieldDict f).subtype = f.subtype ∧ (fieldDict f).maxlength = f.maxlength ∧
      (fieldDict f).multiple = f.multiple ∧ (fieldDict f).values = f.values ∧
      (fieldDict f).conditions = f.conditions ∧
      (fieldDict f).sort_option = f.sort_option ∧
      (fieldDict f).default_display_field = f.default_display_field) := by
  refine ⟨rfl, rfl, rfl, rfl, rfl, ?_, ?_⟩
  · intro i
    simp [newDoc]
  · intro f
    exact ⟨rfl, rfl, rfl, rfl, rfl, rfl, rfl, rfl, rfl, rfl, rfl, rfl, rfl⟩

/-- C7: a successful update replaces exactly the name, the fields and the
    updated stamp of the first document matching the app-level id,
    leaving its id key, native identifier and creation stamp unchanged
    and leaving every other document untouched; the updated stamp moves
    strictly forward; the response and a subsequent get on the same id
    both show the new name and fields with the old creation stamp. -/
theorem update_frame_and_get (db : DB) (formId nm : String)
    (flds : List FormField) (now : Nat) (d : Doc)
    (hfind : findFirst (idMatches formId) db.docs = some d)
    (hnow : d.updated_at < now) :
    d.id? = some formId ∧
    (updateForm db formId nm flds now).1 =
      .ok ⟨formId, nm, flds.map fieldDict, d.created_at, now⟩ ∧
    (∃ l₁ l₂,
      db.docs = l₁ ++ d :: l₂ ∧
      (updateForm db formId nm flds now).2.docs =
        l₁ ++ { d with name := nm, fields := flds.map fieldDict,
                       updated_at := now } :: l₂) ∧
    (updateForm db formId nm flds now).2.nextOid = db.nextOid ∧
    (updateForm db formId nm flds now).2.nextUuid = db.nextUuid ∧
    getForm (updateForm db formId nm flds now).2 formId =
      .ok ⟨formId, nm, flds.map fieldDict, d.created_at, now⟩ := by
  have hpd : idMatches formId d = true := findFirst_sat hfind
  have hid : d.id? = some formId := idMatches_iff.mp hpd
  obtain ⟨l₁, l₂, hdecomp, hmiss⟩ := findFirst_decomp hfind
  have hfd : setFields nm (flds.map fieldDict) now d =
      { d with name := nm, fields := flds.map fieldDict, updated_at := now } := rfl
  have hne : setFields nm (flds.map fieldDict) now d ≠ d := by
    intro he
    have h2 : now = d.updated_at := congrArg Doc.updated_at he
    omega
  have hupd : updateFirst (idMatches formId)
      (setFields nm (flds.map fieldDict) now) db.docs =
      (l₁ ++ setFields nm (flds.map fieldDict) now d :: l₂, 1) := by
    rw [hdecomp, updateFirst_append hmiss d hpd l₂, if_neg hne]
  have hpfd : idMatches formId (setFields nm (flds.map fieldDict) now d) = true := by
    simpa [idMatches, setFields] using hpd
  have hfindnew : findFirst (idMatches formId)
      (l₁ ++ setFields nm (flds.map fieldDict) now d :: l₂) =
      some (setFields nm (flds.map fieldDict) now d) :=
    findFirst_append hmiss _ hpfd l₂
  have hidnew : (setFields nm (flds.map fieldDict) now d).id? = some formId := hid
  refine ⟨hid, ?_, ⟨l₁, l₂, hdecomp, ?_⟩, rfl, rfl, ?_⟩
  · show wrapTry (updateFormBody db formId nm flds now).1 = _
    simp only [updateFormBody, hupd, hfindnew, hidnew]
    rfl
  · rw [updateForm_state, hupd]
    rfl
  · rw [updateForm_state, hupd]
    show wrapTry (getFormBody _ formId) = _
    simp only [getFormBody, hfindnew, hidnew]
    rfl

/-- C8: the list operation is bounded and identifier-normalizing: its
    result never exceeds one hundred entries whatever the store holds,
    its length is the minimum of the store size and the cap, and every
    returned record is a stored document serialized with the string form
    of its native identifier placed under the app-level id key. -/
theorem list_bounded_and_normalized (db : DB) :
    (getForms db).length ≤ 100 ∧
    (getForms db).length = min db.docs.length 100 ∧
    ∀ fo ∈ getForms db, ∃ d ∈ db.docs, fo = docOut (mongoIdStr d.mongoId) d := by
  refine ⟨?_, ?_, ?_⟩
  · simp [getForms]
  · simp [getForms, Nat.min_comm]
  · intro fo hfo
    simp only [getForms, List.mem_map] at hfo
    obtain ⟨d, hd, rfl⟩ := hfo
    exact ⟨d, List.mem_of_mem_take hd, rfl⟩

end FormBuilder

namespace FormBuilder

theorem goodState_step (db : DB) (op : Op) (h : GoodState db) :
    GoodState (step db op) := by
  cases op with
  | create nm flds now =>
    intro d hd
    rcases List.mem_append.mp hd with hmem | hmem
    · obtain ⟨k, n, h1, h2, h3, h4⟩ := h d hmem
      exact ⟨k, n, h1, Nat.lt_succ_of_lt h2, h3, Nat.lt_succ_of_lt h4⟩
    · rcases List.mem_singleton.mp hmem with rfl
      exact ⟨db.nextUuid, db.nextOid, rfl, Nat.lt_succ_self _, rfl, Nat.lt_succ_self _⟩
  | update formId nm flds now =>
    intro d hd
    rcases mem_updateFirst hd with hmem | ⟨y, hy, rfl⟩
    · exact h d hmem
    · obtain ⟨k, n, h1, h2, h3, h4⟩ := h y hy
      exact ⟨k, n, h1, h2, h3, h4⟩
  | delete formId =>
    intro d hd
    exact h d (mem_deleteFirst hd)
  | getOne formId => exact h
  | list => exact h

theorem reachable_goodState {db : DB} (h : Reachable db) : GoodState db := by
  induction h with
  | init => intro d hd; simp [dbEmpty] at hd
  | next op _ ih => exact goodState_step _ op ih

/-- C10: identity invariant of the store.  Every document of a reachable
    store carries two identifiers: an app-generated uuid string under the
    id key and a native ObjectId, which never render to the same
    string; and across any further request each surviving document keeps
    its id key, its native identifier and its creation stamp unchanged,
    while a create adds one document whose uuid differs from the id of
    every pre-existing document. -/
theorem stored_id_invariant_and_stability (db : DB) (op : Op) (h : Reachable db) :
    (∀ d ∈ db.docs, ∃ k n, d.id? = some (uuidStr k) ∧ d.mongoId = .oid n ∧
        uuidStr k ≠ oidStr n) ∧
    (∀ d ∈ (step db op).docs,
      (∃ nm flds now, op = .create nm flds now ∧
        d.id? = some (uuidStr db.nextUuid) ∧ d.mongoId = .oid db.nextOid ∧
        ∀ d0 ∈ db.docs, d0.id? ≠ d.id?) ∨
      (∃ d0 ∈ db.docs, d.id? = d0.id? ∧ d.mongoId = d0.mongoId ∧
        d.created_at = d0.created_at)) := by
  have hg := reachable_goodState h
  constructor
  · intro d hd
    obtain ⟨k, n, h1, _, h3, _⟩ := hg d hd
    exact ⟨k, n, h1, h3, uuidStr_ne_oidStr k n⟩
  · intro d hd
    cases op with
    | create nm flds now =>
      rcases List.mem_append.mp hd with hmem | hmem
      · exact Or.inr ⟨d, hmem, rfl, rfl, rfl⟩
      · rcases List.mem_singleton.mp hmem with rfl
        refine Or.inl ⟨nm, flds, now, rfl, rfl, rfl, ?_⟩
        intro d0 hd0 hcontra
        obtain ⟨k, n, h1, h2, _, _⟩ := hg d0 hd0
        rw [h1] at hcontra
        have h5 : uuidStr k = uuidStr db.nextUuid := by
          have h6 := hcontra
          simp only [newDoc] at h6
          exact Option.some.inj h6
        have h7 := uuidStr_inj h5
        omega
    | update formId nm flds now =>
      rcases mem_updateFirst hd with hmem | ⟨y, hy, rfl⟩
      · exact Or.inr ⟨d, hmem, rfl, rfl, rfl⟩
      · exact Or.inr ⟨y, hy, rfl, rfl, rfl⟩
    | delete formId => exact Or.inr ⟨d, mem_deleteFirst hd, rfl, rfl, rfl⟩
    | getOne formId => exact Or.inr ⟨d, hd, rfl, rfl, rfl⟩
    | list => exact Or.inr ⟨d, hd, rfl, rfl, rfl⟩

end FormBuilder

namespace FormBuilder

/-- Witness for C7: updating the single stored app document at time nine
    replaces its name and fields, moves the updated stamp from two to
    nine, keeps its identity and creation stamp, and a subsequent get
    shows the new content. -/
theorem update_frame_and_get_witness :
    appDoc.id? = some (uuidStr 3) ∧
    (updateForm dbOne (uuidStr 3) "Contact v2" [sampleField] 9).1 =
      .ok ⟨uuidStr 3, "Contact v2", [sampleField].map fieldDict, appDoc.created_at, 9⟩ ∧
    (∃ l₁ l₂,
      dbOne.docs = l₁ ++ appDoc :: l₂ ∧
      (updateForm dbOne (uuidStr 3) "Contact v2" [sampleField] 9).2.docs =
        l₁ ++ { appDoc with name := "Contact v2", fields := [sampleField].map fieldDict,
                            updated_at := 9 } :: l₂) ∧
    (updateForm dbOne (uuidStr 3) "Contact v2" [sampleField] 9).2.nextOid = dbOne.nextOid ∧
    (updateForm dbOne (uuidStr 3) "Contact v2" [sampleField] 9).2.nextUuid = dbOne.nextUuid ∧
    getForm (updateForm dbOne (uuidStr 3) "Contact v2" [sampleField] 9).2 (uuidStr 3) =
      .ok ⟨uuidStr 3, "Contact v2", [sampleField].map fieldDict, appDoc.created_at, 9⟩ :=
  update_frame_and_get dbOne (uuidStr 3) "Contact v2" [sampleField] 9 appDoc
    (by decide) (by decide)

/-- Witness for C8 on the concrete mixed store: the listing is within the
    cap and the record serialized from the app document is a stored
    document with its native identifier stringified under the id key. -/
theorem list_bounded_and_normalized_witness :
    (getForms dbMixed).length ≤ 100 ∧
    (∃ d ∈ dbMixed.docs, docOut (oidStr 5) appDoc = docOut (mongoIdStr d.mongoId) d) :=
  ⟨(list_bounded_and_normalized dbMixed).1,
   (list_bounded_and_normalized dbMixed).2.2 (docOut (oidStr 5) appDoc) (by decide)⟩

/-- Witness for C10: the empty store is reachable, and the create request
    appends one document carrying the fresh uuid and the fresh native
    ObjectId. -/
theorem stored_id_invariant_witness :
    (∀ d ∈ dbEmpty.docs, ∃ k n, d.id? = some (uuidStr k) ∧ d.mongoId = .oid n ∧
        uuidStr k ≠ oidStr n) ∧
    (∀ d ∈ (step dbEmpty (.create "Contact" [sampleField] 0)).docs,
      (∃ nm flds now, Op.create "Contact" [sampleField] 0 = .create nm flds now ∧
        d.id? = some (uuidStr dbEmpty.nextUuid) ∧ d.mongoId = .oid dbEmpty.nextOid ∧
        ∀ d0 ∈ dbEmpty.docs, d0.id? ≠ d.id?) ∨
      (∃ d0 ∈ dbEmpty.docs, d.id? = d0.id? ∧ d.mongoId = d0.mongoId ∧
        d.created_at = d0.created_at)) :=
  stored_id_invariant_and_stability dbEmpty (.create "Contact" [sampleField] 0)
    Reachable.init

end FormBuilder
